import Mathlib

/-!
# Verification of the toho-html-data extraction pipeline

Shallow embedding of the HTML-to-structured-data extraction pipeline of
`src/index.ts` (catalog walker, book structure resolver, volume file
parser, bibliographic classifier, Chinese numeral normalizer, aggregator)
and of the reference numeral converter `chineseToArabic` from
`src/update-index.ts`, together with theorems settling the frozen claims.

Modelling conventions:
* JS strings are Lean `String`s; per-character work uses `String.data`.
* JS `number`s holding integer counts are `Nat`.
* The filesystem is a function `FS : String → FileRes`; a read that
  throws is `FileRes.err`, a nonexistent file is `FileRes.absent`.
* Exceptions that propagate are modelled with `Except`.
* The fixed textual patterns (JS regexes) over titles, descriptions,
  volume names and filenames are implemented directly over `List Char`,
  following the exact backtracking behaviour of the source regexes.
  Only the HTML markup layer is abstracted: a document is carried as its
  already-lexed payload (script-variable declarations of a volume page,
  anchor targets of a menu page, classified lines of a listing page),
  since every regex in the source that touches markup extracts exactly
  that payload.
-/

namespace Toho

/-! ## Chinese Numeral Normalizer, right-to-left variant
`parseChineseNumber`, src/index.ts lines 219-257. -/

/-- JS `/^\d+$/.test(s)` followed by `parseInt(s)`: `some` of the
decimal value when the string is a nonempty ASCII digit sequence,
`none` otherwise. -/
def jsDigitsOnly (s : String) : Option Nat :=
  if s.data ≠ [] ∧ s.data.all (·.isDigit) then
    some (s.data.foldl (fun a c => a * 10 + (c.toNat - 48)) 0)
  else none

/-- The digit table `chineseDigits` of `parseChineseNumber`
(src/index.ts lines 224-228).  A character outside the table looks up to
JS `undefined`, modelled as `none`. -/
def chineseDigits : Char → Option Nat
  | '一' => some 1
  | '二' => some 2
  | '三' => some 3
  | '四' => some 4
  | '五' => some 5
  | '六' => some 6
  | '七' => some 7
  | '八' => some 8
  | '九' => some 9
  | '十' => some 10
  | '百' => some 100
  | '千' => some 1000
  | '万' => some 10000
  | _ => none

/-- One pass of the right-to-left loop body of `parseChineseNumber`
(src/index.ts lines 234-254).  The state is `(result, current, unit)`;
`current` is an `Option` because the JS variable can hold `undefined`
(for a character outside the digit table, `undefined >= 10` is false and
`current = digit` stores `undefined`; the later guards `current === 0`
and `current > 0` are both false on `undefined`). -/
def pcnStep (st : Nat × Option Nat × Nat) (c : Char) : Nat × Option Nat × Nat :=
  let result := st.1
  let current := st.2.1
  let unit := st.2.2
  let digit := chineseDigits c
  let step1 : Option Nat × Nat :=
    match digit with
    | some d =>
      if d ≥ 10 then
        if d > unit then
          (if current = some 0 then some 1 else current, d)
        else (current, d)
      else (some d, unit)
    | none => (none, unit)
  let current := step1.1
  let unit := step1.2
  match current with
  | some cv =>
    if cv > 0 ∧ unit > 0 then
      (result + cv * unit, some 0, if unit < 10 then 1 else unit)
    else (result, current, unit)
  | none => (result, current, unit)

/-- `parseChineseNumber` (src/index.ts lines 219-257): if the token is a
plain ASCII digit sequence it is parsed directly (`/^\d+$/` then
`parseInt`); otherwise the string is scanned right to left with
`pcnStep`, and the final `return result || 1` maps a zero accumulator
to 1. -/
def parseChineseNumber (chineseNum : String) : Nat :=
  match jsDigitsOnly chineseNum with
  | some n => n
  | none =>
    let st := chineseNum.data.reverse.foldl pcnStep (0, some 0, 1)
    if st.1 = 0 then 1 else st.1

/-! ## Chinese Numeral Normalizer, left-to-right reference variant
`chineseToArabic`, src/update-index.ts lines 33-70.  (The source file is
stored with a damaged encoding; the keys of its `chineseNums` table are
the standard numeral characters 零一二三四五六七八九十百千万, recovered
from the UTF-8 byte sequences.) -/

/-- The digit table `chineseNums` of `chineseToArabic`
(src/update-index.ts lines 34-49). -/
def chineseNums : Char → Option Nat
  | '零' => some 0
  | '一' => some 1
  | '二' => some 2
  | '三' => some 3
  | '四' => some 4
  | '五' => some 5
  | '六' => some 6
  | '七' => some 7
  | '八' => some 8
  | '九' => some 9
  | '十' => some 10
  | '百' => some 100
  | '千' => some 1000
  | '万' => some 10000
  | _ => none

/-- JS `parseInt` on a string that may only have a digit prefix: the
longest leading run of ASCII digits, `none` when there is none (`NaN`).
Used to model the trailing `|| parseInt(text) || 0` of
`chineseToArabic`. -/
def jsParseIntLeading (s : String) : Option Nat :=
  let ds := s.data.takeWhile (·.isDigit)
  if ds.isEmpty then none else jsDigitsOnly (String.mk ds)

/-- `chineseToArabic` (src/update-index.ts lines 33-70): plain digit
strings short-circuit through `parseInt`; otherwise a left-to-right
place-value scan with state `(result, temp)`, characters outside the
table skipped, then `result += temp` and
`return result || parseInt(text) || 0`. -/
def chineseToArabic (text : String) : Nat :=
  match jsDigitsOnly text with
  | some n => n
  | none =>
    let st := text.data.foldl
      (fun (rt : Nat × Nat) c =>
        match chineseNums c with
        | some num =>
          if num ≥ 10 then
            (rt.1 + (if num = 10 ∧ rt.2 = 0 then 1 else rt.2) * num, 0)
          else (rt.1, rt.2 * 10 + num)
        | none => rt)
      (0, 0)
    let r := st.1 + st.2
    if r ≠ 0 then r else (jsParseIntLeading text).getD 0

/-! ## Filesystem and document model -/

/-- The script-variable declarations a volume document can carry, as
extracted by the five `var ...` regexes of `parseVolumeFile`
(src/index.ts lines 164-168).  Each field is the first match of the
corresponding regex, `none` when the declaration is absent. -/
structure VolDoc where
  volNum : Option Nat
  volName : Option String
  volStartPos : Option Nat
  volMaxPage : Option Nat
  bookNum : Option String
deriving DecidableEq

/-- One line of a catalog listing document, as classified by the per-line
regexes of `processTopFile` (src/index.ts lines 358, 365): a category
heading (`<h2>` capture), an anchor with target, link text and optional
trailing description capture, or a line matching neither. -/
inductive CatLine where
  | h2 (category : String)
  | link (url : String) (title : String) (desc : Option String)
  | other
deriving DecidableEq

/-- A document, carried as the payload the source's regexes extract from
its text: a volume page is its script-variable declarations, a menu page
the anchor targets appearing in it (in document order), a listing page
its classified lines.  Reading a document through the "wrong" parser
behaves exactly as in the source: a menu or listing page has no `var`
declarations, a volume page has no headings, catalog anchors or
volume-file anchors. -/
inductive Doc where
  | vol (d : VolDoc)
  | menu (hrefs : List String)
  | listing (lines : List CatLine)
deriving DecidableEq

/-- The result of looking a path up in the filesystem: the file does not
exist, the file exists but reading it throws, or the file exists with
the given content. -/
inductive FileRes where
  | absent
  | err
  | doc (d : Doc)
deriving DecidableEq

/-- The filesystem a run operates on. -/
def FS := String → FileRes

/-- The first `var volNum = (\d+)` declaration visible in a document. -/
def Doc.volNumDecl : Doc → Option Nat
  | .vol d => d.volNum
  | _ => none

/-- The first `var volName = "..."` declaration visible in a document. -/
def Doc.volNameDecl : Doc → Option String
  | .vol d => d.volName
  | _ => none

/-- The first `var volStartPos = (\d+)` declaration. -/
def Doc.volStartPosDecl : Doc → Option Nat
  | .vol d => d.volStartPos
  | _ => none

/-- The first `var volMaxPage = (\d+)` declaration. -/
def Doc.volMaxPageDecl : Doc → Option Nat
  | .vol d => d.volMaxPage
  | _ => none

/-- The first `var bookNum = "..."` declaration. -/
def Doc.bookNumDecl : Doc → Option String
  | .vol d => d.bookNum
  | _ => none

/-- The anchor targets of a document (menu-file link extraction,
src/index.ts lines 80-97). -/
def Doc.menuHrefs : Doc → List String
  | .menu hs => hs
  | _ => []

/-- The classified lines of a listing document (src/index.ts
lines 352-363). -/
def Doc.listingLines : Doc → List CatLine
  | .listing ls => ls
  | _ => []

/-! ## Textual patterns of the volume parser -/

/-- The character class `[一二三四五六七八九十百千万\d]` used by the
卷第/第…册 capture groups (src/index.ts lines 185, 190). -/
def isNumChar (c : Char) : Bool :=
  (Toho.chineseDigits c).isSome || c.isDigit

/-- First match of `/卷第([一二三四五六七八九十百千万\d]+)/` : scan left
to right (the regex engine tries every start position) for 卷
immediately followed by 第 and at least one class character; the
capture is the maximal (greedy) class run. -/
def findJuanDi : List Char → Option (List Char)
  | [] => none
  | '卷' :: rest =>
    match rest with
    | '第' :: rest2 =>
      let cap := rest2.takeWhile isNumChar
      if cap = [] then findJuanDi rest else some cap
    | _ => findJuanDi rest
  | _ :: rest => findJuanDi rest

/-- First match of `/第([一二三四五六七八九十百千万\d]+)册/` : scan left
to right for 第 followed by a nonempty class run whose very next
character is 册 (since 册 is outside the class, regex backtracking can
only succeed on the maximal run). -/
def findDiCe : List Char → Option (List Char)
  | [] => none
  | '第' :: rest =>
    let cap := rest.takeWhile isNumChar
    if cap = [] then findDiCe rest
    else
      match rest.drop cap.length with
      | '册' :: _ => some cap
      | _ => findDiCe rest
  | _ :: rest => findDiCe rest

/-- Decimal value of a run of ASCII digit characters. -/
def digitsVal (ds : List Char) : Nat :=
  ds.foldl (fun a c => a * 10 + (c.toNat - 48)) 0

/-- Match of `/(\d{4})\.html$/` against a filename: the four characters
before a terminating `.html` must be ASCII digits; the capture is their
decimal value (src/index.ts line 196). -/
def fileSeq (volumeUrl : String) : Option Nat :=
  match volumeUrl.data.reverse with
  | 'l' :: 'm' :: 't' :: 'h' :: '.' :: d1 :: d2 :: d3 :: d4 :: _ =>
    if d1.isDigit ∧ d2.isDigit ∧ d3.isDigit ∧ d4.isDigit then
      some (digitsVal [d4, d3, d2, d1])
    else none
  | _ => none

/-- First match of `/([A-Z]\d{3})/` : the first position holding an
ASCII uppercase letter followed by three ASCII digits (src/index.ts
lines 58, 130, 325). -/
def findBookId : List Char → Option String
  | a :: rest =>
    match rest with
    | b :: c :: d :: _ =>
      if a.isUpper ∧ b.isDigit ∧ c.isDigit ∧ d.isDigit then
        some (String.mk [a, b, c, d])
      else findBookId rest
    | _ => none
  | [] => none

/-- JS `String.prototype.includes` (substring containment). -/
def includesAux : List Char → List Char → Bool
  | hay, needle =>
    if needle.isPrefixOf hay then true
    else
      match hay with
      | [] => false
      | _ :: t => includesAux t needle

/-- JS `s.includes(sub)`. -/
def strIncludes (s sub : String) : Bool :=
  includesAux s.data sub.data

/-- JS `s.split('/').pop()`: the suffix after the last `/` (the whole
string when there is no `/`). -/
def lastComponent (l : List Char) : List Char :=
  l.foldl (fun acc c => if c = '/' then [] else acc ++ [c]) []

/-- JS `String.prototype.replace` with a string pattern: replace the
first occurrence only. -/
def replaceFirstAux (hay needle repl : List Char) : List Char :=
  if needle.isPrefixOf hay then repl ++ hay.drop needle.length
  else
    match hay with
    | [] => []
    | c :: t => c :: replaceFirstAux t needle repl

/-- JS `s.replace(pat, rep)` (first occurrence). -/
def strReplaceFirst (s pat rep : String) : String :=
  String.mk (replaceFirstAux s.data pat.data rep.data)

/-- JS `String(i).padStart(4, '0')`. -/
def pad4 (i : Nat) : String :=
  let s := toString i
  String.mk (List.replicate (4 - s.length) '0') ++ s

/-! ## Volume File Parser — `parseVolumeFile`, src/index.ts 152-216 -/

/-- One volume/fascicle record, the `BookVolume` interface of
src/index.ts lines 3-13.  `volumeNumber` and `sequence` are kept
optional to match the interface, although `parseVolumeFile` always
assigns them. -/
structure BookVolume where
  id : String
  title : String
  url : String
  volumeNumber : Option Nat
  chapterNumber : Option Nat
  startPage : Option Nat
  maxPage : Option Nat
  bookNumber : String
  sequence : Option Nat
deriving DecidableEq

/-- `parseVolumeFile` (src/index.ts lines 152-216).  A nonexistent file,
a read that throws (caught at line 212) or a document missing either
mandatory declaration (`volNum`, `volName`) yields the absence signal
`none`.  Otherwise the volume number defaults to the declared `volNum`
and is overridden by the Numeral Normalizer applied to a 卷第… phrase in
the volume name; a 第…册 phrase sets the chapter number; the sequence
number comes from the 4-digit filename suffix, defaulting to `volNum`. -/
def parseVolumeFile (fs : FS) (volumePath : String) : Option BookVolume :=
  match fs volumePath with
  | .absent => none
  | .err => none
  | .doc d =>
    match d.volNumDecl, d.volNameDecl with
    | some volNum, some volName =>
      let volumeUrl := String.mk (lastComponent volumePath.data)
      let volumeNumber :=
        match findJuanDi volName.data with
        | some cap => Toho.parseChineseNumber (String.mk cap)
        | none => volNum
      let chapterNumber :=
        (findDiCe volName.data).map (fun cap => Toho.parseChineseNumber (String.mk cap))
      let fileSequence := (fileSeq volumeUrl).getD volNum
      some
        { id := strReplaceFirst volumeUrl ".html" ""
          title := volName
          url := volumeUrl
          volumeNumber := some volumeNumber
          chapterNumber := chapterNumber
          startPage := d.volStartPosDecl
          maxPage := d.volMaxPageDecl
          bookNumber := (d.bookNumDecl).getD ""
          sequence := some fileSequence }
    | _, _ => none

/-! ## Scanning fallback — `scanVolumeFiles`, src/index.ts 128-149 -/

/-- The conventional padded volume filename
`` `${bookId}${String(i).padStart(4, '0')}.html` `` (src/index.ts
line 138). -/
def volumeFileName (bookId : String) (i : Nat) : String :=
  bookId ++ pad4 i ++ ".html"

/-- The probe loop of `scanVolumeFiles` (src/index.ts lines 137-146),
collecting the successfully parsed volumes: `for i in 1..100`, probe the
conventional filename; on a missing volume, break only when `i > 10`.
The first argument is the number of remaining loop iterations
(`101 - i` at the source's loop counter `i`); the top-level entry point
runs the loop with 100 iterations starting at `i = 1`. -/
def scanLoop (fs : FS) (bookId : String) : Nat → Nat → List BookVolume
  | 0, _ => []
  | fuel + 1, i =>
    match parseVolumeFile fs (volumeFileName bookId i) with
    | some v => v :: scanLoop fs bookId fuel (i + 1)
    | none => if i > 10 then [] else scanLoop fs bookId fuel (i + 1)

/-- The same loop, recording the sequence numbers actually probed
(including the probe that misses and aborts the loop). -/
def scanProbesLoop (fs : FS) (bookId : String) : Nat → Nat → List Nat
  | 0, _ => []
  | fuel + 1, i =>
    match parseVolumeFile fs (volumeFileName bookId i) with
    | some _ => i :: scanProbesLoop fs bookId fuel (i + 1)
    | none => if i > 10 then [i] else i :: scanProbesLoop fs bookId fuel (i + 1)

/-- `scanVolumeFiles` (src/index.ts lines 128-149): derive the book
identifier from the URL (no identifier means no volumes), then run the
100-iteration probe loop from sequence number 1. -/
def scanVolumeFiles (fs : FS) (bookUrl : String) : List BookVolume :=
  match findBookId bookUrl.data with
  | none => []
  | some bookId => scanLoop fs bookId 100 1

/-- The sequence numbers `scanVolumeFiles` probes. -/
def scanProbes (fs : FS) (bookUrl : String) : List Nat :=
  match findBookId bookUrl.data with
  | none => []
  | some bookId => scanProbesLoop fs bookId 100 1

/-! ## Book Structure Resolver — `parseBookStructure`, src/index.ts 51-125 -/

/-- JS `path.dirname`, restricted to the plain relative paths this
pipeline builds (no trailing slashes): the text before the last `/`,
`"."` when there is none (src/index.ts line 74). -/
def dirnameStr (p : String) : String :=
  let r := p.data.reverse
  match r.dropWhile (· ≠ '/') with
  | [] => "."
  | _ :: t => if t = [] then "/" else String.mk t.reverse

/-- `resolve(dir, url)` for the sibling-relative link targets of this
corpus, modelled as plain path concatenation (the corpus uses no `..`
and no absolute targets). -/
def resolveJoin (dir url : String) : String := dir ++ "/" ++ url

/-- Head-position test for `/[A-Z]\d{7}\.html/`. -/
def volHrefAt : List Char → Bool
  | a :: d1 :: d2 :: d3 :: d4 :: d5 :: d6 :: d7 :: '.' :: 'h' :: 't' :: 'm' :: 'l' :: _ =>
    a.isUpper && d1.isDigit && d2.isDigit && d3.isDigit && d4.isDigit &&
      d5.isDigit && d6.isDigit && d7.isDigit
  | _ => false

/-- Unanchored search for the volume-file pattern. -/
def hasVolHrefAux : List Char → Bool
  | [] => false
  | l@(_ :: t) => volHrefAt l || hasVolHrefAux t

/-- JS `/[A-Z]\d{7}\.html/.test(url)` (src/index.ts line 91). -/
def isVolumeHref (url : String) : Bool := hasVolHrefAux url.data

/-- Outcome of the menu-document phase of `parseBookStructure`: fall
back to scanning (menu file absent, or no volume links found in it),
abort with the empty list (the menu read threw; caught at src/index.ts
line 121), or the volumes collected from the menu links in document
order. -/
inductive MenuRes where
  | scanFallback
  | failed
  | collected (vols : List BookVolume)
deriving DecidableEq

/-- The menu phase of `parseBookStructure` (src/index.ts lines 54-110):
determine the menu path (for a URL that is neither a menu nor a top
page, derive `{bookId}menu.html` from the book identifier), read it,
keep the anchor targets matching the volume-file pattern, resolve them
against the menu directory, parse each via the Volume File Parser and
discard absence signals. -/
def menuLookup (fs : FS) (bookUrl : String) : MenuRes :=
  let menuFilePath :=
    if ¬ strIncludes bookUrl "menu.html" ∧ ¬ strIncludes bookUrl "top.html" then
      match findBookId bookUrl.data with
      | some bookId => "./html/html/" ++ bookId ++ "menu.html"
      | none => resolveJoin "./html/html" bookUrl
    else resolveJoin "./html/html" bookUrl
  match fs menuFilePath with
  | .absent => .scanFallback
  | .err => .failed
  | .doc d =>
    let menuDir := dirnameStr menuFilePath
    let volumeUrls :=
      (d.menuHrefs.filter (fun u => isVolumeHref u)).map (fun u => resolveJoin menuDir u)
    if volumeUrls = [] then .scanFallback
    else .collected (volumeUrls.filterMap (fun p => parseVolumeFile fs p))

/-- The sort key of the volume sort (src/index.ts lines 113-117):
`volumeNumber || 0`. -/
def volKey (v : BookVolume) : Nat := v.volumeNumber.getD 0

/-- The comparator of the volume sort: ascending by `volKey`. -/
def volLe (a b : BookVolume) : Bool := decide (volKey a ≤ volKey b)

/-- `parseBookStructure` (src/index.ts lines 51-125): use the menu path
when available, the scanning fallback otherwise; only the menu path
sorts its result (JS `Array.prototype.sort`, stable per ES2019,
modelled by the stable `List.mergeSort`); a caught error yields `[]`. -/
def parseBookStructure (fs : FS) (bookUrl : String) : List BookVolume :=
  match menuLookup fs bookUrl with
  | .scanFallback => scanVolumeFiles fs bookUrl
  | .failed => []
  | .collected vols => vols.mergeSort volLe

/-! ## Bibliographic Text Classifier — `parseBookInfo`, src/index.ts 260-321 -/

/-- The JS `\s` whitespace class (augmented in the source's author
patterns with the ideographic space 　, which `\s` already contains):
space, tab, line/form feeds, vertical tab, carriage return, NBSP, and
the Unicode space separators. -/
def isJsSpace (c : Char) : Bool :=
  c == ' ' || c == '\t' || c == '\n' || c == '\r' ||
  c == '\x0b' || c == '\x0c' || c == '\u00A0' || c == '\u1680' ||
  (decide (0x2000 ≤ c.toNat) && decide (c.toNat ≤ 0x200A)) ||
  c == '\u2028' || c == '\u2029' || c == '\u202F' || c == '\u205F' ||
  c == '\u3000' || c == '\uFEFF'

/-- JS `String.prototype.trim` (drops `\s` characters from both ends). -/
def trimJs (s : String) : String :=
  String.mk (((s.data.dropWhile isJsSpace).reverse.dropWhile isJsSpace).reverse)

/-- Split a character list into its maximal runs of non-whitespace
characters (the only spans over which `([^　\s]+)<role>` can match);
the second argument accumulates the current run in reverse. -/
def splitRunsAux : List Char → List Char → List (List Char)
  | [], acc => if acc = [] then [] else [acc.reverse]
  | c :: t, acc =>
    if isJsSpace c then
      if acc = [] then splitRunsAux t []
      else acc.reverse :: splitRunsAux t []
    else splitRunsAux t (c :: acc)

/-- The maximal non-whitespace runs of a character list, in order. -/
def splitRuns (l : List Char) : List (List Char) :=
  splitRunsAux l []

/-- The single possible match of `([^　\s]+)<role>` inside one maximal
non-whitespace run: the greedy capture backtracks to the *last*
occurrence of the role character in the run, which must not be the
run's first character (the capture needs at least one character before
it); the remainder of the run then contains no further role character,
so a run yields at most one match of the global regex. -/
def lastSuffixCapture (suffix : Char) (run : List Char) : Option (List Char) :=
  let tailLen := (run.reverse.takeWhile (fun c => c != suffix)).length
  if tailLen = run.length then none
  else
    let i := run.length - 1 - tailLen
    if i = 0 then none else some (run.take i)

/-- All matches of the global regex `/([^　\s]+)<role>/g` over a string,
in match order (one capture per qualifying run, runs in document
order). -/
def execSuffixPattern (suffix : Char) (s : String) : List String :=
  (splitRuns s.data).filterMap (fun run => (lastSuffixCapture suffix run).map String.mk)

/-- The role suffixes of the five author patterns, in source order
(src/index.ts lines 302-308). -/
def authorSuffixes : List Char := ['撰', '輯', '注', '疏', '集']

/-- The author-collection loop of `parseBookInfo` (src/index.ts lines
310-318): the five role patterns applied in order; every match is
trimmed and appended only when nonempty and not already present. -/
def collectAuthors (description : String) : List String :=
  authorSuffixes.foldl
    (fun acc suffix =>
      (execSuffixPattern suffix description).foldl
        (fun acc m =>
          let author := trimJs m
          if author ≠ "" ∧ author ∉ acc then acc ++ [author] else acc)
        acc)
    []

/-- The character class `[一二三四五六七八九十百千万不分]` of the
volume-count pattern (src/index.ts line 272; note: no `\d` here). -/
def isVolCountChar (c : Char) : Bool :=
  (chineseDigits c).isSome || c == '不' || c == '分'

/-- First match of `/([一二三四五六七八九十百千万不分]+卷)/` over the
title: at each start position the greedy class run must be followed
immediately by 卷 (卷 is outside the class, so backtracking cannot
shorten the run); the capture includes the 卷. -/
def findVolumesStr : List Char → Option String
  | [] => none
  | c :: t =>
    if isVolCountChar c then
      match t.drop (t.takeWhile isVolCountChar).length with
      | '卷' :: _ => some (String.mk ((c :: t.takeWhile isVolCountChar) ++ ['卷']))
      | _ => findVolumesStr t
    else findVolumesStr t

/-- The dynasty alternation
`(漢|魏|晉|南北朝|隋|唐|五代|宋|遼|金|元|明|淸|清|民國)` of
src/index.ts line 296, alternatives in source order. -/
def dynastyAlts : List (List Char) :=
  [['漢'], ['魏'], ['晉'], ['南', '北', '朝'], ['隋'], ['唐'], ['五', '代'],
   ['宋'], ['遼'], ['金'], ['元'], ['明'], ['淸'], ['清'], ['民', '國']]

/-- First match of the dynasty alternation: leftmost position wins, and
at a position the first alternative in source order wins. -/
def findDynasty : List Char → Option String
  | [] => none
  | l@(_ :: t) =>
    match dynastyAlts.find? (fun alt => alt.isPrefixOf l) with
    | some alt => some (String.mk alt)
    | none => findDynasty t

/-- The `bookType` domain of the `BookEntry` interface (src/index.ts
line 25). -/
inductive BookType where
  | manuscript
  | printed
  | rubbing
  | unknown
deriving DecidableEq

/-- The fields `parseBookInfo` fills in (its `Partial<BookEntry>`
result, src/index.ts lines 261-269). -/
structure BookInfoResult where
  volumes : Option String
  authors : List String
  dynasty : Option String
  publicationInfo : String
  collectionInfo : String
  bookType : BookType
  isIncomplete : Bool
  hasSeals : Bool
  hasNotes : Bool
deriving DecidableEq

/-- `parseBookInfo` (src/index.ts lines 260-321): volume-count phrase
from the title; completeness, edition type (manuscript before printed
before rubbing), seals, annotations and dynasty from substring tests on
the description; authors via the five role patterns.  `collectionInfo`
is initialized to the empty string and never written again. -/
def parseBookInfo (title description : String) : BookInfoResult :=
  { volumes := findVolumesStr title.data
    authors := collectAuthors description
    dynasty := findDynasty description.data
    publicationInfo := description
    collectionInfo := ""
    bookType :=
      if strIncludes description "鈔本" || strIncludes description "手稿" ||
          strIncludes description "手簡" then .manuscript
      else if strIncludes description "刊本" || strIncludes description "活字印本" ||
          strIncludes description "石印本" then .printed
      else if strIncludes description "拓本" then .rubbing
      else .unknown
    isIncomplete :=
      strIncludes title "殘" || strIncludes title "零片" ||
      strIncludes description "残" || strIncludes description "存卷"
    hasSeals := strIncludes description "圖記" || strIncludes description "印記"
    hasNotes :=
      strIncludes description "識語" || strIncludes description "题跋" ||
      strIncludes description "校語" }

/-- Specification helper for the author list: keep the first occurrence
of every element, preserving first-appearance order. -/
def firstDedup : List String → List String
  | [] => []
  | a :: t => a :: firstDedup (t.filter (fun x => decide (x ≠ a)))
termination_by l => l.length
decreasing_by
  simp only [List.length_cons]
  exact Nat.lt_succ_of_le (List.length_filter_le _ _)

/-! ## Catalog Walker — `processTopFile`, src/index.ts 341-403 -/

/-- JS `a || b` on strings (`b` when `a` is empty). -/
def jsOrStr (a b : String) : String := if a = "" then b else a

/-- JS `String(i).padStart(3, '0')`. -/
def pad3 (i : Nat) : String :=
  let s := toString i
  String.mk (List.replicate (3 - s.length) '0') ++ s

/-- `generateBookId` (src/index.ts lines 324-339): the `[A-Z]\d{3}`
pattern from the URL when present, else hard-coded prefixes for two
distinctive path substrings, else `UNKNOWN` — each with the zero-padded
running index. -/
def generateBookId (url : String) (index : Nat) : String :=
  match findBookId url.data with
  | some m => m
  | none =>
    if strIncludes url "ShiSanJingZhuShu" then "SJ" ++ pad3 index
    else if strIncludes url "BaoJuanWuShiZhong" then "BJ" ++ pad3 index
    else "UNKNOWN" ++ pad3 index

/-- One catalog record, the `BookEntry` interface of src/index.ts
lines 15-31 (the `structure` field is named `volumeList` here because
`structure` is a Lean keyword; `totalVolumes` is kept optional to match
the interface). -/
structure BookEntry where
  id : String
  category : String
  title : String
  url : String
  volumes : Option String
  authors : List String
  dynasty : Option String
  publicationInfo : String
  collectionInfo : String
  bookType : BookType
  isIncomplete : Bool
  hasSeals : Bool
  hasNotes : Bool
  volumeList : List BookVolume
  totalVolumes : Option Nat
deriving DecidableEq

/-- The mutable module-level state of the walker: the shared `books`
array and the running `bookIndex` counter (src/index.ts lines 341-342). -/
structure WalkSt where
  books : List BookEntry
  bookIndex : Nat
deriving DecidableEq

/-- Errors that abort the run: an uncaught exception from reading a
listing document (`file.text()` at src/index.ts line 351 runs outside
any `try`), or exhaustion of the modelling fuel that bounds the
unguarded recursion into nested listings. -/
inductive RunErr where
  | readError (path : String)
  | fuelOut
deriving DecidableEq

/-- The per-line loop of `processTopFile` (src/index.ts lines 355-400),
parameterized by the recursion entry `recurse` used for nested listing
documents (`processTopFile` ties the knot one fuel step lower): a
heading updates the category for the remainder of the document; a link
is handled only while a category is active (JS string truthiness): a
`top.html` target recurses with the current category inherited, any
other target becomes a `BookEntry` built from the Bibliographic Text
Classifier and the Book Structure Resolver, appended to the shared list
with the running index incremented. -/
def processLinesWith (fs : FS)
    (recurse : String → String → WalkSt → Except RunErr WalkSt) :
    List CatLine → String → String → WalkSt → Except RunErr WalkSt
  | [], _, _, st => .ok st
  | line :: rest, filePath, category, st =>
    match line with
    | .h2 cat => processLinesWith fs recurse rest filePath cat st
    | .link url titleRaw descOpt =>
      if category ≠ "" then
        if url.endsWith "top.html" then
          match recurse (resolveJoin (dirnameStr filePath) url) category st with
          | .error e => .error e
          | .ok st2 => processLinesWith fs recurse rest filePath category st2
        else
          let title := trimJs titleRaw
          let description :=
            match descOpt with
            | some dsc => trimJs dsc
            | none => ""
          let bookInfo := parseBookInfo title description
          let structureList := parseBookStructure fs url
          let book : BookEntry :=
            { id := generateBookId url st.bookIndex
              category := category
              title := title
              url := url
              volumes := bookInfo.volumes
              authors := bookInfo.authors
              dynasty := bookInfo.dynasty
              publicationInfo := description
              collectionInfo := jsOrStr bookInfo.collectionInfo ""
              bookType := bookInfo.bookType
              isIncomplete := bookInfo.isIncomplete
              hasSeals := bookInfo.hasSeals
              hasNotes := bookInfo.hasNotes
              volumeList := structureList
              totalVolumes := some structureList.length }
          processLinesWith fs recurse rest filePath category
            { books := st.books ++ [book], bookIndex := st.bookIndex + 1 }
      else processLinesWith fs recurse rest filePath category st
    | .other => processLinesWith fs recurse rest filePath category st

/-- `processTopFile` (src/index.ts lines 344-401): a nonexistent listing
document is logged and skipped (state returned unchanged); a read error
propagates; otherwise the document's lines are processed in order.
`fuel` bounds the recursion depth into nested listings (the source has
no such bound; every theorem quantifies over or supplies sufficient
fuel). -/
def processTopFile (fs : FS) : Nat → String → String → WalkSt → Except RunErr WalkSt
  | 0, _, _, _ => .error .fuelOut
  | f + 1, filePath, currentCategory, st =>
    match fs filePath with
    | .absent => .ok st
    | .err => .error (.readError filePath)
    | .doc d =>
      processLinesWith fs (fun p c s => processTopFile fs f p c s)
        d.listingLines filePath currentCategory st

/-- The per-line loop with the recursion entry tied at fuel `f` (this is
the loop as it runs inside `processTopFile` at fuel `f + 1`). -/
def processLines (fs : FS) (f : Nat) (lines : List CatLine)
    (filePath : String) (category : String) (st : WalkSt) : Except RunErr WalkSt :=
  processLinesWith fs (fun p c s => processTopFile fs f p c s)
    lines filePath category st

/-! ## Aggregator — statistics and snapshot, src/index.ts 403-465 -/

/-- The volume-count bucket of a book (src/index.ts lines 435-440):
`totalVolumes || 0` classified into `{0, 1-5, 6-10, 11-20, 21-50,
50+}`. -/
def volRange (b : BookEntry) : String :=
  let volumeCount := b.totalVolumes.getD 0
  if volumeCount = 0 then "0"
  else if volumeCount ≤ 5 then "1-5"
  else if volumeCount ≤ 10 then "6-10"
  else if volumeCount ≤ 20 then "11-20"
  else if volumeCount ≤ 50 then "21-50"
  else "50+"

/-- The six bucket labels, in the order the classification can produce
them. -/
def bucketLabels : List String := ["0", "1-5", "6-10", "11-20", "21-50", "50+"]

/-- Increment one key of a string-keyed counter record
(`m[k] = (m[k] || 0) + 1`). -/
def bumpKey (m : String → Nat) (k : String) : String → Nat :=
  fun r => if r = k then m r + 1 else m r

/-- The `byVolumeCount` statistics fold (src/index.ts lines 434-442),
starting from the empty record. -/
def byVolumeCount (books : List BookEntry) : String → Nat :=
  books.foldl (fun m b => bumpKey m (volRange b)) (fun _ => 0)

/-- The snapshot's metadata block (src/index.ts lines 446-452; the
`extractedAt` timestamp is omitted from the model, being a wall-clock
read). -/
structure Metadata where
  title : String
  totalBooks : Nat
  categories : List String
  totalVolumes : Nat

/-- The snapshot's statistics block (src/index.ts lines 409-414),
string-keyed records modelled as functions. -/
structure Statistics where
  byCategory : String → Nat
  byBookType : String → Nat
  byDynasty : String → Nat
  byVolumeCount : String → Nat

/-- The `LibraryData` snapshot (src/index.ts lines 33-48). -/
structure LibraryData where
  metadata : Metadata
  books : List BookEntry
  statistics : Statistics

/-- Distinct categories in order of first appearance
(`[...new Set(books.map(b => b.category))]`, src/index.ts line 406). -/
def distinctCategories (books : List BookEntry) : List String :=
  firstDedup (books.map (fun b => b.category))

/-- The name a `bookType` value serializes to (the keys of
`statistics.byBookType`). -/
def BookType.name : BookType → String
  | .manuscript => "manuscript"
  | .printed => "printed"
  | .rubbing => "rubbing"
  | .unknown => "unknown"

/-- The aggregation step (src/index.ts lines 403-455): categories in
first-appearance order, volume totals, the four statistics folds, and
the assembled snapshot. -/
def buildLibraryData (books : List BookEntry) : LibraryData :=
  let categories := distinctCategories books
  let totalVolumes := books.foldl (fun sum b => sum + b.totalVolumes.getD 0) 0
  { metadata :=
      { title := "東方學デジタル圖書館"
        totalBooks := books.length
        categories := categories
        totalVolumes := totalVolumes }
    books := books
    statistics :=
      { byCategory := fun c =>
          if c ∈ categories then (books.filter (fun b => b.category = c)).length else 0
        byBookType := fun t =>
          if t ∈ ["manuscript", "printed", "rubbing", "unknown"] then
            (books.filter (fun b => b.bookType.name = t)).length
          else 0
        byDynasty :=
          books.foldl
            (fun m b => match b.dynasty with | some dy => bumpKey m dy | none => m)
            (fun _ => 0)
        byVolumeCount := byVolumeCount books } }

/-- The conventional root listing path (src/index.ts line 403). -/
def rootPath : String := "./html/html/top.html"

/-- The top-level run (src/index.ts lines 403-465): walk the catalog
from the root listing with no inherited category and empty state, then
aggregate and emit the snapshot; an uncaught error from the walk
propagates and no snapshot is produced. -/
def runExtraction (fs : FS) (fuel : Nat) : Except RunErr LibraryData :=
  match processTopFile fs fuel rootPath "" ⟨[], 0⟩ with
  | .error e => .error e
  | .ok st => .ok (buildLibraryData st.books)

/-- The book list of a walker outcome (empty when the run aborted). -/
def booksOf : Except RunErr WalkSt → List BookEntry
  | .ok st => st.books
  | .error _ => []

/-! ## Concrete filesystems used to instantiate the theorems -/

/-- A filesystem on which the very first scan probe misses and every
other file is a readable volume document. -/
def fsScanGap : FS := fun p =>
  if p = "A0010001.html" then .absent
  else .doc (.vol ⟨some 1, some "", none, none, none⟩)

/-- A filesystem with no menu file for book B002 and two scan-reachable
volume documents whose declared volume numbers arrive in descending
order (file 0001 declares volume 5, file 0002 declares volume 3). -/
def fsScanOrder : FS := fun p =>
  if p = "B0020001.html" then .doc (.vol ⟨some 5, some "", none, none, none⟩)
  else if p = "B0020002.html" then .doc (.vol ⟨some 3, some "", none, none, none⟩)
  else .absent

/-- A filesystem where book C003 has a menu document listing its two
volume files in descending volume order. -/
def fsMenuBook : FS := fun p =>
  if p = "./html/html/C003menu.html" then .doc (.menu ["C0030002.html", "C0030001.html"])
  else if p = "./html/html/C0030002.html" then .doc (.vol ⟨some 2, some "", none, none, none⟩)
  else if p = "./html/html/C0030001.html" then .doc (.vol ⟨some 1, some "", none, none, none⟩)
  else .absent

/-- A filesystem holding exactly one volume document, the §8 example of
the spec: `volNum = 3`, `volName = "尚書正義卷第三"`, and no optional
declarations. -/
def fsShangshu : FS := fun p =>
  if p = "A0010003.html" then .doc (.vol ⟨some 3, some "尚書正義卷第三", none, none, none⟩)
  else .absent

end Toho

/-- C1: The two Chinese Numeral Normalizer variants are claimed to agree
on the canonical inputs 十, 二十 and 一百五十 with values 10, 20 and 150.
Evaluating both implementations shows they agree only on 十: the
right-to-left `parseChineseNumber` returns 30 for 二十 and 260 for
一百五十 (it flushes the implicit multiplicand 1 for a unit character
and then additionally adds digit × unit for the digit standing before
the unit), while the left-to-right `chineseToArabic` returns the
expected 20 and 150. -/
theorem chinese_numeral_variants_disagree :
    Toho.parseChineseNumber "十" = 10 ∧
    Toho.chineseToArabic "十" = 10 ∧
    Toho.parseChineseNumber "二十" = 30 ∧
    Toho.chineseToArabic "二十" = 20 ∧
    Toho.parseChineseNumber "一百五十" = 260 ∧
    Toho.chineseToArabic "一百五十" = 150 := by
  refine ⟨?_, ?_, ?_, ?_, ?_, ?_⟩ <;> rfl

/-- Helper: membership characterization of the probe loop.  A sequence
number `j` is probed by the loop with `fuel` remaining iterations
started at `i` exactly when `j` lies in `[i, i + fuel)` and every
earlier probed number `k > 10` was a hit — i.e. the loop stops exactly
at the first miss whose sequence number exceeds 10, and misses at
numbers `≤ 10` never stop it. -/
theorem scanProbesLoop_mem (fs : Toho.FS) (bookId : String) :
    ∀ fuel i j : Nat, j ∈ Toho.scanProbesLoop fs bookId fuel i ↔
      i ≤ j ∧ j < i + fuel ∧
      ∀ k, i ≤ k → k < j → 10 < k →
        (Toho.parseVolumeFile fs (Toho.volumeFileName bookId k)).isSome := by
  intro fuel
  induction fuel with
  | zero =>
    intro i j
    simp only [Toho.scanProbesLoop, List.not_mem_nil, false_iff]
    rintro ⟨h1, h2, -⟩
    omega
  | succ n ih =>
    intro i j
    rw [Toho.scanProbesLoop]
    cases hp : Toho.parseVolumeFile fs (Toho.volumeFileName bookId i) with
    | some v =>
      simp only [List.mem_cons, ih (i + 1) j]
      constructor
      · rintro (rfl | ⟨h1, h2, h3⟩)
        · exact ⟨le_refl j, by omega, fun k hk1 hk2 _ => by omega⟩
        · exact ⟨by omega, by omega, fun k hk1 hk2 h10 => by
            rcases Nat.eq_or_lt_of_le hk1 with rfl | hlt
            · rw [hp]; rfl
            · exact h3 k (by omega) hk2 h10⟩
      · rintro ⟨h1, h2, h3⟩
        rcases Nat.eq_or_lt_of_le h1 with rfl | hlt
        · exact Or.inl rfl
        · exact Or.inr ⟨by omega, by omega, fun k hk1 hk2 h10 => h3 k (by omega) hk2 h10⟩
    | none =>
      by_cases h10i : i > 10
      · simp only [h10i, ite_true, List.mem_singleton]
        constructor
        · rintro rfl
          exact ⟨le_refl j, by omega, fun k hk1 hk2 _ => by omega⟩
        · rintro ⟨h1, h2, h3⟩
          rcases Nat.eq_or_lt_of_le h1 with rfl | hlt
          · rfl
          · have := h3 i (le_refl i) hlt h10i
            rw [hp] at this
            exact absurd this (by simp)
      · simp only [h10i, ite_false, List.mem_cons, ih (i + 1) j]
        constructor
        · rintro (rfl | ⟨h1, h2, h3⟩)
          · exact ⟨le_refl j, by omega, fun k hk1 hk2 _ => by omega⟩
          · exact ⟨by omega, by omega, fun k hk1 hk2 hk10 => by
              rcases Nat.eq_or_lt_of_le hk1 with rfl | hlt
              · omega
              · exact h3 k (by omega) hk2 hk10⟩
        · rintro ⟨h1, h2, h3⟩
          rcases Nat.eq_or_lt_of_le h1 with rfl | hlt
          · exact Or.inl rfl
          · exact Or.inr ⟨by omega, by omega, fun k hk1 hk2 hk10 => h3 k (by omega) hk2 hk10⟩

/-- C2 (amended): the scanning fallback probes sequence numbers 1..100
in order and aborts exactly at the first failed probe whose sequence
number exceeds 10; failed probes at sequence numbers 1..10 never stop
the scan.  Concretely: `j` is probed iff `1 ≤ j ≤ 100` and every probe
`k < j` with `k > 10` was a hit. -/
theorem scan_probe_termination_rule (fs : Toho.FS) (bookUrl bookId : String)
    (hid : Toho.findBookId bookUrl.data = some bookId) (j : Nat) :
    j ∈ Toho.scanProbes fs bookUrl ↔
      1 ≤ j ∧ j ≤ 100 ∧
      ∀ k, k < j → 10 < k →
        (Toho.parseVolumeFile fs (Toho.volumeFileName bookId k)).isSome := by
  unfold Toho.scanProbes
  rw [hid]
  rw [scanProbesLoop_mem fs bookId 100 1 j]
  constructor
  · rintro ⟨h1, h2, h3⟩
    exact ⟨h1, by omega, fun k hk h10 => h3 k (by omega) hk h10⟩
  · rintro ⟨h1, h2, h3⟩
    exact ⟨h1, by omega, fun k _ hk h10 => h3 k hk h10⟩

/-- Witness for `scan_probe_termination_rule` at a concrete input. -/
theorem scan_probe_termination_rule_witness :
    1 ∈ Toho.scanProbes Toho.fsScanGap "A001menu.html" :=
  (scan_probe_termination_rule Toho.fsScanGap "A001menu.html" "A001" rfl 1).mpr
    ⟨le_refl 1, by omega, fun k hk h10 => absurd (by omega : (10 : Nat) < 1) (by omega)⟩

/-- C2 (counterexample to the claim as stated): on `fsScanGap` the very
first probe (sequence number 1) misses, yet the scan still issues all
100 probes — 99 probes after the first failure, far more than 10 — so
the scan is exhaustive to 100 after a failure has occurred. -/
theorem scan_not_bounded_after_failure :
    (Toho.scanProbes Toho.fsScanGap "A001menu.html").length = 100 ∧
    Toho.parseVolumeFile Toho.fsScanGap (Toho.volumeFileName "A001" 1) = none := by
  constructor
  · rfl
  · rfl

/-- C5: the Volume File Parser returns the absence signal (`none`) — it
never throws — whenever the document does not exist, reading it throws,
or either mandatory declaration (`volNum`, `volName`) is missing from
the document text.  (In the embedding `parseVolumeFile` is a total
function into `Option BookVolume`, mirroring the `try`/`catch` at
src/index.ts lines 153, 212-215 that converts every thrown error into
`null`.) -/
theorem parseVolumeFile_absence_signal (fs : Toho.FS) (path : String)
    (h : fs path = .absent ∨ fs path = .err ∨
      ∃ d, fs path = .doc d ∧ (d.volNumDecl = none ∨ d.volNameDecl = none)) :
    Toho.parseVolumeFile fs path = none := by
  rcases h with h | h | ⟨d, hd, hm⟩
  · unfold Toho.parseVolumeFile
    rw [h]
  · unfold Toho.parseVolumeFile
    rw [h]
  · rcases hm with hm | hm
    · cases hn : d.volNameDecl <;>
        simp [Toho.parseVolumeFile, hd, hm, hn]
    · cases hv : d.volNumDecl <;>
        simp [Toho.parseVolumeFile, hd, hm, hv]

/-- Witness for `parseVolumeFile_absence_signal` on a concrete
nonexistent path. -/
theorem parseVolumeFile_absence_signal_witness :
    Toho.parseVolumeFile (fun _ => .absent) "Z9990001.html" = none :=
  parseVolumeFile_absence_signal (fun _ => .absent) "Z9990001.html" (Or.inl rfl)

/-- C6: on a document declaring `volNum = 3` and
`volName = "尚書正義卷第三"` with no start-page or max-page declarations,
the Volume File Parser returns a volume whose `volumeNumber` is 3 (the
卷第三 phrase is normalized to 3, agreeing with the declared `volNum`),
whose `chapterNumber` is absent (no 第…册 phrase), and whose `startPage`
and `maxPage` are absent. -/
theorem parseVolumeFile_shangshu_example :
    Toho.parseVolumeFile Toho.fsShangshu "A0010003.html" =
      some { id := "A0010003", title := "尚書正義卷第三", url := "A0010003.html",
             volumeNumber := some 3, chapterNumber := none, startPage := none,
             maxPage := none, bookNumber := "", sequence := some 3 } := by
  rfl

/-- Helper: the collecting probe loop returns exactly the parses of the
probed filenames, in probe order. -/
theorem scanLoop_eq_probes_filterMap (fs : Toho.FS) (bookId : String) :
    ∀ fuel i, Toho.scanLoop fs bookId fuel i =
      (Toho.scanProbesLoop fs bookId fuel i).filterMap
        (fun k => Toho.parseVolumeFile fs (Toho.volumeFileName bookId k)) := by
  intro fuel
  induction fuel with
  | zero => intro i; rfl
  | succ n ih =>
    intro i
    rw [Toho.scanLoop, Toho.scanProbesLoop]
    cases hp : Toho.parseVolumeFile fs (Toho.volumeFileName bookId i) with
    | some v => simp [List.filterMap_cons, hp, ih]
    | none =>
      by_cases h10 : i > 10 <;> simp [h10, List.filterMap_cons, hp, ih]

/-- Helper: the comparator `volLe` is transitive. -/
theorem volLe_trans : ∀ a b c : Toho.BookVolume,
    Toho.volLe a b → Toho.volLe b c → Toho.volLe a c := by
  intro a b c hab hbc
  simp only [Toho.volLe, decide_eq_true_eq] at *
  omega

/-- Helper: the comparator `volLe` is total. -/
theorem volLe_total : ∀ a b : Toho.BookVolume,
    Toho.volLe a b || Toho.volLe b a := by
  intro a b
  simp only [Toho.volLe]
  rcases Nat.le_total (Toho.volKey a) (Toho.volKey b) with h | h <;> simp [h]

/-- C3 (amended): on the menu-document path the Book Structure Resolver
returns the collected volumes sorted ascending by volume number
(missing treated as 0), as a stable permutation of the discovery order
(ties keep their relative order); on the scanning-fallback path the
result is exactly the successfully parsed volumes in probe (file
sequence) order — no sort is applied there. -/
theorem parseBookStructure_sort_behaviour (fs : Toho.FS) (bookUrl : String) :
    (∀ vols, Toho.menuLookup fs bookUrl = .collected vols →
      (Toho.parseBookStructure fs bookUrl).Pairwise
        (fun a b => Toho.volKey a ≤ Toho.volKey b) ∧
      (Toho.parseBookStructure fs bookUrl).Perm vols ∧
      (∀ a b : Toho.BookVolume, Toho.volLe a b →
        List.Sublist [a, b] vols →
        List.Sublist [a, b] (Toho.parseBookStructure fs bookUrl))) ∧
    (Toho.menuLookup fs bookUrl = .scanFallback →
      Toho.parseBookStructure fs bookUrl = Toho.scanVolumeFiles fs bookUrl) ∧
    (∀ bookId, Toho.findBookId bookUrl.data = some bookId →
      Toho.scanVolumeFiles fs bookUrl =
        (Toho.scanProbes fs bookUrl).filterMap
          (fun i => Toho.parseVolumeFile fs (Toho.volumeFileName bookId i))) := by
  refine ⟨?_, ?_, ?_⟩
  · intro vols hm
    have hres : Toho.parseBookStructure fs bookUrl = vols.mergeSort Toho.volLe := by
      unfold Toho.parseBookStructure
      rw [hm]
    refine ⟨?_, ?_, ?_⟩
    · rw [hres]
      have hs := @List.sorted_mergeSort _ Toho.volLe
        (fun a b c => volLe_trans a b c) (fun a b => volLe_total a b) vols
      exact hs.imp (fun h => by simpa [Toho.volLe, decide_eq_true_eq] using h)
    · rw [hres]
      exact List.mergeSort_perm vols Toho.volLe
    · intro a b hab hsub
      rw [hres]
      exact List.pair_sublist_mergeSort
        (fun x y z => volLe_trans x y z) (fun x y => volLe_total x y) hab hsub
  · intro hm
    unfold Toho.parseBookStructure
    rw [hm]
  · intro bookId hid
    unfold Toho.scanVolumeFiles Toho.scanProbes
    rw [hid]
    exact scanLoop_eq_probes_filterMap fs bookId 100 1

/-- Witness for `parseBookStructure_sort_behaviour`: the menu-path
result for the concrete book C003 is sorted by volume number. -/
theorem parseBookStructure_sort_behaviour_witness :
    (Toho.parseBookStructure Toho.fsMenuBook "C003menu.html").Pairwise
      (fun a b => Toho.volKey a ≤ Toho.volKey b) :=
  ((parseBookStructure_sort_behaviour Toho.fsMenuBook "C003menu.html").1 _ rfl).1

/-- C3 (counterexample to the claim as stated): on the scanning-fallback
path the resolver does not sort — on `fsScanOrder` it returns the
volumes with volume numbers `[5, 3]`, which is not ascending. -/
theorem scan_fallback_result_unsorted :
    (Toho.parseBookStructure Toho.fsScanOrder "B0020001.html").map Toho.volKey = [5, 3] ∧
    ¬ ((Toho.parseBookStructure Toho.fsScanOrder "B0020001.html").map Toho.volKey).Sorted (· ≤ ·) := by
  refine ⟨rfl, fun h => ?_⟩
  rw [show (Toho.parseBookStructure Toho.fsScanOrder "B0020001.html").map Toho.volKey
        = [5, 3] from rfl] at h
  rcases List.sorted_cons.mp h with ⟨h5, -⟩
  exact absurd (h5 3 (by simp)) (by omega)

/-- Helper: everything in `firstDedup l` comes from `l`, and the result
has no duplicates. -/
theorem firstDedup_sub_nodup :
    ∀ n (l : List String), l.length ≤ n →
      (∀ x ∈ Toho.firstDedup l, x ∈ l) ∧ (Toho.firstDedup l).Nodup := by
  intro n
  induction n with
  | zero =>
    intro l hl
    cases l with
    | nil => simp [Toho.firstDedup]
    | cons a t => simp at hl
  | succ n ih =>
    intro l hl
    cases l with
    | nil => simp [Toho.firstDedup]
    | cons a t =>
      rw [show Toho.firstDedup (a :: t)
            = a :: Toho.firstDedup (t.filter (fun x => decide (x ≠ a))) from by
          rw [Toho.firstDedup]]
      have hlen : (t.filter (fun x => decide (x ≠ a))).length ≤ n :=
        le_trans (List.length_filter_le _ _) (by simp at hl; omega)
      obtain ⟨hsub, hnd⟩ := ih _ hlen
      constructor
      · intro x hx
        rcases List.mem_cons.mp hx with rfl | hx
        · exact List.mem_cons_self _ _
        · exact List.mem_cons_of_mem _ (List.mem_of_mem_filter (hsub x hx))
      · refine List.nodup_cons.mpr ⟨fun hmem => ?_, hnd⟩
        have h1 := List.of_mem_filter (hsub a hmem)
        simp at h1

/-- Helper: the dedup-append fold of the author loop equals the
accumulator followed by the first-occurrence dedup of those incoming
elements that are nonempty and not already present. -/
theorem foldl_dedup_append (l : List String) : ∀ acc : List String,
    l.foldl (fun acc a => if a ≠ "" ∧ a ∉ acc then acc ++ [a] else acc) acc =
      acc ++ Toho.firstDedup
        ((l.filter (fun a => decide (a ≠ ""))).filter (fun a => decide (a ∉ acc))) := by
  induction l with
  | nil => intro acc; simp [Toho.firstDedup]
  | cons a t ih =>
    intro acc
    simp only [List.foldl_cons, List.filter_cons]
    by_cases ha : a = ""
    · rw [if_neg (fun (h : a ≠ "" ∧ a ∉ acc) => h.1 ha),
          if_neg (show ¬ (decide (a ≠ "") = true) from by simp [ha])]
      exact ih acc
    · rw [if_pos (show decide (a ≠ "") = true from by simp [ha])]
      simp only [List.filter_cons]
      by_cases hmem : a ∈ acc
      · rw [if_neg (fun (h : a ≠ "" ∧ a ∉ acc) => h.2 hmem),
            if_neg (show ¬ (decide (a ∉ acc) = true) from by simp [hmem])]
        exact ih acc
      · rw [if_pos (show a ≠ "" ∧ a ∉ acc from ⟨ha, hmem⟩),
            if_pos (show decide (a ∉ acc) = true from by simp [hmem])]
        rw [ih (acc ++ [a])]
        rw [show Toho.firstDedup
              (a :: (t.filter (fun x => decide (x ≠ ""))).filter (fun x => decide (x ∉ acc)))
            = a :: Toho.firstDedup
                (((t.filter (fun x => decide (x ≠ ""))).filter
                  (fun x => decide (x ∉ acc))).filter (fun x => decide (x ≠ a))) from by
          rw [Toho.firstDedup]]
        have hfil : (t.filter (fun x => decide (x ≠ ""))).filter
              (fun x => decide (x ∉ acc ++ [a]))
            = ((t.filter (fun x => decide (x ≠ ""))).filter
                (fun x => decide (x ∉ acc))).filter (fun x => decide (x ≠ a)) := by
          rw [List.filter_filter, List.filter_filter, List.filter_filter]
          apply List.filter_congr
          intro x _
          rcases Decidable.em (x ∈ acc) with hx | hx <;>
            rcases Decidable.em (x = a) with hy | hy <;>
              rcases Decidable.em (x = "") with hz | hz <;>
                simp [List.mem_append, hx, hy, hz]
        rw [hfil]
        simp

/-- Helper: the author-collection loop equals the first-occurrence dedup
of the trimmed captures of the five role patterns, run in their fixed
order, with JS's emptiness guard applied. -/
theorem collectAuthors_eq_firstDedup (description : String) :
    Toho.collectAuthors description =
      Toho.firstDedup
        ((((Toho.authorSuffixes.map
              (fun suf => Toho.execSuffixPattern suf description)).flatten).map
            Toho.trimJs).filter (fun a => decide (a ≠ ""))) := by
  unfold Toho.collectAuthors
  rw [show (Toho.authorSuffixes.foldl
        (fun acc suffix =>
          (Toho.execSuffixPattern suffix description).foldl
            (fun acc m =>
              let author := Toho.trimJs m
              if author ≠ "" ∧ author ∉ acc then acc ++ [author] else acc)
            acc)
        [])
      = (((Toho.authorSuffixes.map
            (fun suf => Toho.execSuffixPattern suf description)).flatten).map
          Toho.trimJs).foldl
          (fun acc a => if a ≠ "" ∧ a ∉ acc then acc ++ [a] else acc) [] from by
    rw [List.foldl_map, List.foldl_flatten, List.foldl_map]]
  rw [foldl_dedup_append]
  have : ((((Toho.authorSuffixes.map
        (fun suf => Toho.execSuffixPattern suf description)).flatten).map
      Toho.trimJs).filter (fun a => decide (a ≠ ""))).filter
        (fun a => decide (a ∉ ([] : List String)))
      = (((Toho.authorSuffixes.map
            (fun suf => Toho.execSuffixPattern suf description)).flatten).map
          Toho.trimJs).filter (fun a => decide (a ≠ "")) := by
    apply List.filter_eq_self.mpr
    intro x _
    simp
  rw [this]
  simp

/-- C8: for every title/description pair, the author list of the
Bibliographic Text Classifier has no duplicate names, and it is exactly
the first-occurrence dedup of the trimmed captures of the five
role-suffix patterns (撰, 輯, 注, 疏, 集), run in that fixed order over
the description (with JS's guard dropping an empty trimmed capture) —
i.e. its order is the order of first appearance across the five
passes. -/
theorem authors_nodup_first_appearance (title description : String) :
    (Toho.parseBookInfo title description).authors.Nodup ∧
    (Toho.parseBookInfo title description).authors =
      Toho.firstDedup
        ((((Toho.authorSuffixes.map
              (fun suf => Toho.execSuffixPattern suf description)).flatten).map
            Toho.trimJs).filter (fun a => decide (a ≠ ""))) := by
  have hb : (Toho.parseBookInfo title description).authors
      = Toho.collectAuthors description := rfl
  constructor
  · rw [hb, collectAuthors_eq_firstDedup]
    exact (firstDedup_sub_nodup _ _ (le_refl _)).2
  · rw [hb, collectAuthors_eq_firstDedup]


/-- C9: while no category heading is in effect (empty inherited category
and no heading seen yet), every link line — book entry or nested
listing alike — is ignored: processing a document whose line list
starts with any stretch of non-heading lines under the empty category
is the same as processing the remainder, so no `BookEntry` is ever
appended from a link encountered before the first heading. -/
theorem link_before_heading_ignored (fs : Toho.FS) (f : Nat)
    (pre rest : List Toho.CatLine) (filePath : String) (st : Toho.WalkSt)
    (h : ∀ l ∈ pre, ∀ cat, l ≠ Toho.CatLine.h2 cat) :
    Toho.processLines fs f (pre ++ rest) filePath "" st =
      Toho.processLines fs f rest filePath "" st := by
  unfold Toho.processLines
  induction pre with
  | nil => rfl
  | cons l t ih =>
    have hrec := ih (fun x hx cat => h x (List.mem_cons_of_mem _ hx) cat)
    cases l with
    | h2 cat => exact absurd rfl (h _ (List.mem_cons_self _ _) cat)
    | link url titleRaw descOpt => exact hrec
    | other => exact hrec

/-- Witness for `link_before_heading_ignored`: a concrete book link
standing before any heading is skipped. -/
theorem link_before_heading_ignored_witness :
    Toho.processLines (fun _ => Toho.FileRes.absent) 0
        ([Toho.CatLine.link "A0450001.html" "t" none] ++ [Toho.CatLine.other]) "p" ""
        ⟨[], 0⟩ =
      Toho.processLines (fun _ => Toho.FileRes.absent) 0 [Toho.CatLine.other] "p" ""
        ⟨[], 0⟩ :=
  link_before_heading_ignored (fun _ => Toho.FileRes.absent) 0
    [Toho.CatLine.link "A0450001.html" "t" none] [Toho.CatLine.other] "p" ⟨[], 0⟩
    (fun l hl cat hc => by
      rw [List.mem_singleton] at hl
      subst hl
      exact Toho.CatLine.noConfusion hc)

/-- Helper: the line loop preserves emptiness of `collectionInfo` over
the book list whenever the nested-listing recursion entry does. -/
theorem processLinesWith_collectionInfo (fs : Toho.FS)
    (recurse : String → String → Toho.WalkSt → Except Toho.RunErr Toho.WalkSt)
    (hrec : ∀ p c s, s.books.all (fun b => b.collectionInfo == "") →
      (Toho.booksOf (recurse p c s)).all (fun b => b.collectionInfo == "")) :
    ∀ lines filePath category st,
      st.books.all (fun b => b.collectionInfo == "") →
      (Toho.booksOf (Toho.processLinesWith fs recurse lines filePath category st)).all
        (fun b => b.collectionInfo == "") := by
  intro lines
  induction lines with
  | nil =>
    intro filePath category st hst
    simpa [Toho.processLinesWith, Toho.booksOf] using hst
  | cons line rest ih =>
    intro filePath category st hst
    cases line with
    | h2 cat => exact ih filePath cat st hst
    | other => exact ih filePath category st hst
    | link url titleRaw descOpt =>
      by_cases hcat : category = ""
      · subst hcat
        exact ih filePath "" st hst
      · simp only [Toho.processLinesWith]
        rw [if_pos hcat]
        by_cases hurl : url.endsWith "top.html"
        · rw [if_pos hurl]
          cases hcall : recurse (Toho.resolveJoin (Toho.dirnameStr filePath) url) category st with
          | error e => simp [Toho.booksOf]
          | ok st2 =>
            apply ih
            have hall := hrec (Toho.resolveJoin (Toho.dirnameStr filePath) url) category st hst
            rw [hcall] at hall
            exact hall
        · rw [if_neg hurl]
          apply ih
          rw [List.all_append]
          simp only [hst, Bool.true_and, List.all_cons, List.all_nil, Bool.and_true]
          rfl
      
/-- Helper: the walker preserves emptiness of `collectionInfo` over the
book list, at every fuel. -/
theorem processTopFile_collectionInfo (fs : Toho.FS) :
    ∀ fuel filePath category st,
      st.books.all (fun b => b.collectionInfo == "") →
      (Toho.booksOf (Toho.processTopFile fs fuel filePath category st)).all
        (fun b => b.collectionInfo == "") := by
  intro fuel
  induction fuel with
  | zero =>
    intro filePath category st hst
    simp [Toho.processTopFile, Toho.booksOf]
  | succ f ih =>
    intro filePath category st hst
    simp only [Toho.processTopFile]
    cases hfs : fs filePath with
    | absent => simpa [Toho.booksOf] using hst
    | err => simp [Toho.booksOf]
    | doc d =>
      exact processLinesWith_collectionInfo fs _ (fun p c s hs => ih p c s hs)
        d.listingLines filePath category st hst

/-- C10: the Bibliographic Text Classifier always initializes
`collectionInfo` to the empty string and never extracts collection
text, and the Catalog Walker copies that default (through the `|| ''`
fallback) into every book record, so every `BookEntry` the walker ever
appends carries an empty `collectionInfo`. -/
theorem collectionInfo_always_empty :
    (∀ t d, (Toho.parseBookInfo t d).collectionInfo = "") ∧
    (∀ fs fuel,
      (Toho.booksOf (Toho.processTopFile fs fuel Toho.rootPath "" ⟨[], 0⟩)).all
        (fun b => b.collectionInfo == "")) := by
  refine ⟨fun t d => rfl, fun fs fuel => ?_⟩
  exact processTopFile_collectionInfo fs fuel Toho.rootPath "" ⟨[], 0⟩ rfl

/-- C4 (counterexample to the claim as stated): on a filesystem where
the root listing document does not exist, the run is NOT aborted —
`processTopFile` logs and returns, and a snapshot (with zero books) is
still produced. -/
theorem missing_root_does_not_abort :
    Toho.runExtraction (fun _ => Toho.FileRes.absent) 1 =
      Except.ok (Toho.buildLibraryData []) ∧
    (Toho.buildLibraryData []).metadata.totalBooks = 0 :=
  ⟨rfl, rfl⟩

/-- C4 (amended): a nonexistent root listing document does not abort the
run — the walk returns an empty book list and a snapshot with
`totalBooks = 0` is still produced; what does abort the run, with no
snapshot, is a read error on the root listing document (its `text()`
call runs outside any `try`/`catch` and the error propagates). -/
theorem root_missing_vs_root_error (fs : Toho.FS) (fuel : Nat) :
    (fs Toho.rootPath = Toho.FileRes.absent →
      Toho.runExtraction fs (fuel + 1) = Except.ok (Toho.buildLibraryData [])) ∧
    (fs Toho.rootPath = Toho.FileRes.err →
      Toho.runExtraction fs (fuel + 1) =
        Except.error (Toho.RunErr.readError Toho.rootPath)) := by
  constructor
  · intro h
    unfold Toho.runExtraction
    simp only [Toho.processTopFile, h]
  · intro h
    unfold Toho.runExtraction
    simp only [Toho.processTopFile, h]

/-- Witness for `root_missing_vs_root_error` at concrete filesystems. -/
theorem root_missing_vs_root_error_witness :
    Toho.runExtraction (fun _ => Toho.FileRes.err) 1 =
      Except.error (Toho.RunErr.readError Toho.rootPath) :=
  (root_missing_vs_root_error (fun _ => Toho.FileRes.err) 0).2 rfl

/-- Helper: every book's bucket is one of the six labels. -/
theorem volRange_mem_bucketLabels (b : Toho.BookEntry) :
    Toho.volRange b ∈ Toho.bucketLabels := by
  simp only [Toho.volRange, Toho.bucketLabels]
  split_ifs <;> simp

/-- Helper: bumping a key inside the label list increases the sum over
the labels by exactly one (the labels being distinct). -/
theorem bumpKey_sum (m : String → Nat) (k : String) :
    ∀ labels : List String, labels.Nodup → k ∈ labels →
      (labels.map (Toho.bumpKey m k)).sum = (labels.map m).sum + 1 := by
  intro labels
  induction labels with
  | nil => intro _ hk; cases hk
  | cons a t ih =>
    intro hnd hk
    rcases List.mem_cons.mp hk with rfl | hk2
    · have ha : k ∉ t := (List.nodup_cons.mp hnd).1
      have ht : t.map (Toho.bumpKey m k) = t.map m := by
        apply List.map_congr_left
        intro x hx
        have hxk : x ≠ k := fun e => ha (e ▸ hx)
        simp [Toho.bumpKey, hxk]
      rw [List.map_cons, List.map_cons, List.sum_cons, List.sum_cons, ht]
      have hh : Toho.bumpKey m k k = m k + 1 := by simp [Toho.bumpKey]
      rw [hh]
      omega
    · have hak : a ≠ k := fun e => (List.nodup_cons.mp hnd).1 (e ▸ hk2)
      rw [List.map_cons, List.map_cons, List.sum_cons, List.sum_cons,
        ih (List.nodup_cons.mp hnd).2 hk2]
      have hh : Toho.bumpKey m k a = m a := by simp [Toho.bumpKey, hak]
      rw [hh]
      omega

/-- C7: the volume-count-bucket statistics of the snapshot partition the
book list — every book falls into exactly one of the six buckets, so
the values of `statistics.byVolumeCount` over the bucket labels
`{0, 1-5, 6-10, 11-20, 21-50, 50+}` sum to `books.length` (which also
equals the snapshot's `metadata.totalBooks`). -/
theorem byVolumeCount_partitions (books : List Toho.BookEntry) :
    (Toho.bucketLabels.map
        ((Toho.buildLibraryData books).statistics.byVolumeCount)).sum
      = (Toho.buildLibraryData books).books.length ∧
    (Toho.buildLibraryData books).metadata.totalBooks
      = (Toho.buildLibraryData books).books.length := by
  refine ⟨?_, rfl⟩
  have hnd : Toho.bucketLabels.Nodup := by decide
  have main : ∀ (bs : List Toho.BookEntry) (m : String → Nat),
      (Toho.bucketLabels.map
          (bs.foldl (fun m b => Toho.bumpKey m (Toho.volRange b)) m)).sum
        = (Toho.bucketLabels.map m).sum + bs.length := by
    intro bs
    induction bs with
    | nil => intro m; simp
    | cons b t ih =>
      intro m
      simp only [List.foldl_cons, List.length_cons]
      rw [ih (Toho.bumpKey m (Toho.volRange b))]
      rw [bumpKey_sum m (Toho.volRange b) Toho.bucketLabels hnd
        (volRange_mem_bucketLabels b)]
      omega
  have hval : (Toho.buildLibraryData books).statistics.byVolumeCount
      = Toho.byVolumeCount books := rfl
  rw [hval]
  unfold Toho.byVolumeCount
  rw [main books (fun _ => 0)]
  have hb : (Toho.buildLibraryData books).books = books := rfl
  rw [hb]
  simp
